import Mathlib

/-!
Verification of the host-discovery program (src/main.rs) against its
specification.  The program reads one line `A.B.C.D/N`, validates it
(`validate_ip_cidr`, `validate_ip_address`), derives a subnet mask and an
address enumeration from it, pings every enumerated address and aggregates
the results.  This file gives a shallow embedding of that pipeline:

* strings are modelled as `List Char` (with `String` wrappers at the
  boundary), Rust machine integers as `Nat` with explicit `% 2^32` / bound
  checks where overflow matters;
* fallible operations (`unwrap`, overflowing shifts in debug builds)
  return `Option` / are reflected by the `MainResult.panicked` outcome;
* the external `ping` process is a parameter `pingOut : Nat → String`
  giving the stdout the mechanism produces for each probed address.
-/

set_option maxRecDepth 8192

/-! ## Character predicates and numeric string parsing

`isDigitChar` is ASCII `0`-`9`; `isWsChar` covers the ASCII range of
Rust's `char::is_whitespace` (space, tab, LF, VT, FF, CR — the non-ASCII
Unicode whitespace code points are irrelevant to every claim). -/

def isDigitChar (c : Char) : Bool := decide (48 ≤ c.toNat ∧ c.toNat ≤ 57)

def isWsChar (c : Char) : Bool := decide (c.toNat = 32 ∨ (9 ≤ c.toNat ∧ c.toNat ≤ 13))

/-- Numeric value of a digit string, most significant digit first. -/
def digitsVal (l : List Char) : Nat := l.foldl (fun a c => a * 10 + (c.toNat - 48)) 0

/-- Rust's unsigned `FromStr` accepts one optional leading `+`. -/
def stripPlus : List Char → List Char
  | '+' :: rest => rest
  | l => l

/-- Rust `str::parse::<uN>()`: optional `+`, then a nonempty run of decimal
digits whose value fits the type (`maxVal` is the type's maximum); anything
else is `Err` (modelled `none`).  Overflow during accumulation is exactly
`digitsVal > maxVal` since accumulation is monotone. -/
def parseUnsigned (maxVal : Nat) (l : List Char) : Option Nat :=
  if stripPlus l = [] then none
  else if (stripPlus l).all isDigitChar then
    if digitsVal (stripPlus l) ≤ maxVal then some (digitsVal (stripPlus l)) else none
  else none

def parseU8Chars : List Char → Option Nat := parseUnsigned 255

def parseU32Chars : List Char → Option Nat := parseUnsigned 4294967295

/-! ## Splitting and trimming (Rust `str::split`, `str::trim`) -/

/-- Rust `input.split(sep).collect::<Vec<_>>()` for a one-character
separator: always nonempty, empty chunks preserved. -/
def splitOnChar (sep : Char) : List Char → List (List Char)
  | [] => [[]]
  | c :: rest =>
      if c = sep then [] :: splitOnChar sep rest
      else
        match splitOnChar sep rest with
        | [] => [[c]]
        | h :: t => (c :: h) :: t

/-- Rust `str::trim`: strip leading and trailing whitespace. -/
def trimChars (l : List Char) : List Char :=
  ((l.dropWhile isWsChar).reverse.dropWhile isWsChar).reverse

/-! ## The validator (src/main.rs lines 19-64) -/

/-- One iteration of the octet loop in `validate_ip_address`
(src/main.rs lines 52-61): `if let Ok(value) = octet.parse::<u8>()
{ if value > 255 { return false } } else { return false }`.  The
`value > 255` test is kept exactly as written even though a `u8` can
never exceed 255. -/
def octet_ok (o : List Char) : Bool :=
  match parseU8Chars o with
  | some value => if value > 255 then false else true
  | none => false

/-- `validate_ip_address` (src/main.rs lines 46-64): split on `.`, demand
exactly four parts, and run the octet check on each. -/
def validate_ip_address (ip : List Char) : Bool :=
  if (splitOnChar '.' ip).length ≠ 4 then false
  else (splitOnChar '.' ip).all octet_ok

/-- src/main.rs lines 32-42: `u8`-parse the trimmed prefix part
(`InvalidPrefix` on parse failure), then reject values above 32. -/
def cidrCheck (ip : List Char) : Option Nat → Except String (List Char × Nat)
  | some cidr =>
      if cidr > 32 then Except.error ("CIDR prefix must be a number between 0 - 32.")
      else Except.ok (ip, cidr)
  | none => Except.error ("Invalid CIDR prefix.")

/-- The body of `validate_ip_cidr` once the split yielded exactly the two
parts `p0` and `p1`. -/
def validateTwoParts (p0 p1 : List Char) : Except String (List Char × Nat) :=
  if validate_ip_address (trimChars p0) then
    cidrCheck (trimChars p0) (parseU8Chars (trimChars p1))
  else Except.error ("Invalid IP address.")

/-- `validate_ip_cidr` (src/main.rs lines 19-43) at the character level:
split on `/` (exactly two parts or `MalformedInput`), trim and validate the
address part, trim and `u8`-parse the prefix part.  On success returns the
trimmed address string together with the parsed prefix. -/
def validateCidrChars (input : List Char) : Except String (List Char × Nat) :=
  match splitOnChar '/' input with
  | [p0, p1] => validateTwoParts p0 p1
  | _ => Except.error ("Invalid format, expected IP with CIDR prefix.")

/-- `validate_ip_cidr` on Lean strings. -/
def validate_ip_cidr (input : String) : Except String (String × Nat) :=
  match validateCidrChars input.data with
  | Except.error e => Except.error e
  | Except.ok (ip, cidr) => Except.ok (String.mk ip, cidr)

/-! ## The strict `Ipv4Addr` parser used by `main` (line 94)

`std::net::Ipv4Addr::from_str` accepts exactly four groups separated by
`.`, each a nonempty all-digit string with no sign, no leading zero
(unless the group is exactly `0`) and value at most 255. -/

def noLeadingZero : List Char → Bool
  | '0' :: _ :: _ => false
  | _ => true

def strictOctet (l : List Char) : Option Nat :=
  if l ≠ [] ∧ l.all isDigitChar = true ∧ noLeadingZero l = true ∧ digitsVal l ≤ 255
  then some (digitsVal l) else none

/-- Combine four parsed octets into the big-endian `u32` value. -/
def ipv4Pack : Option Nat → Option Nat → Option Nat → Option Nat → Option Nat
  | some va, some vb, some vc, some vd =>
      some (va * 16777216 + vb * 65536 + vc * 256 + vd)
  | _, _, _, _ => none

/-- `ip_address.parse::<Ipv4Addr>()` composed with `u32::from` (src/main.rs
lines 94 and 99): big-endian octet value. -/
def parseIpv4Chars (l : List Char) : Option Nat :=
  match splitOnChar '.' l with
  | [a, b, c, d] => ipv4Pack (strictOctet a) (strictOctet b) (strictOctet c) (strictOctet d)
  | _ => none

/-! ## Bit arithmetic of `main` (src/main.rs lines 96-114) -/

def u32MAX : Nat := 4294967295

/-- Rust `x.checked_shr(k)` on `u32`: `none` iff `k ≥ 32`. -/
def checked_shr (x k : Nat) : Option Nat :=
  if k < 32 then some (x >>> k) else none

/-- src/main.rs line 96: `let subnet_mask = !0u32.checked_shr(cidr_not_parse)
.unwrap_or(0);`.  By Rust operator precedence this is
`!(0u32.checked_shr(cidr).unwrap_or(0))`: the receiver of `checked_shr` is
the literal `0`, so the unwrapped value is always `0` and the bitwise
negation always yields `0xFFFFFFFF`. -/
def subnet_mask (cidr : Nat) : Nat :=
  Nat.xor u32MAX ((checked_shr 0 cidr).getD 0)

/-- src/main.rs line 113: the loop bound `1u32 << (32 - cidr)`.  A shift of
a `u32` by 32 or more bits is an arithmetic overflow, a panic in debug
builds (modelled `none`; release builds mask the shift amount instead). -/
def shl1u32 (k : Nat) : Option Nat :=
  if k < 32 then some ((1 <<< k) % 4294967296) else none

/-- src/main.rs line 114: `let address_u32 = ip_address_u32 & subnet_mask_u32 | i;`. -/
def addressAt (ipU32 mask i : Nat) : Nat := Nat.lor (Nat.land ipU32 mask) i

/-! ## The scan loop (src/main.rs lines 103-140) -/

/-- The aggregation state of `main`: the counters `total_count` and
`up_count`, the list `up_ips`, plus (as instrumentation of the claims
about probing) the list of every address handed to `ping`. -/
structure ScanState where
  total : Nat
  upCount : Nat
  upIps : List Nat
  probed : List Nat

/-- The classification string of src/main.rs line 130. -/
def oneReceived : List Char := ("1 received").data

def isPrefixList : List Char → List Char → Bool
  | [], _ => true
  | _ :: _, [] => false
  | a :: as, b :: bs => a == b && isPrefixList as bs

/-- Rust `str::contains` for a literal pattern: some suffix of the
haystack starts with the needle. -/
def containsSub : List Char → List Char → Bool
  | hay, needle =>
      if isPrefixList needle hay then true
      else
        match hay with
        | [] => false
        | _ :: t => containsSub t needle

/-- One iteration of the ping loop (src/main.rs lines 119-139) given the
stdout `out` that the external `ping` produced for `addr`: `total_count`
always increments, and iff the output contains `"1 received"` the address
is recorded as up. -/
def pingStep (out : String) (s : ScanState) (addr : Nat) : ScanState :=
  if containsSub out.data oneReceived then
    ⟨s.total + 1, s.upCount + 1, s.upIps ++ [addr], s.probed ++ [addr]⟩
  else
    ⟨s.total + 1, s.upCount, s.upIps, s.probed ++ [addr]⟩

/-- The whole `for i in 0..bound` loop of src/main.rs lines 113-140. -/
def scanLoop (pingOut : Nat → String) (ipU32 mask bound : Nat) : ScanState :=
  (List.range bound).foldl
    (fun s i => pingStep (pingOut (addressAt ipU32 mask i)) s (addressAt ipU32 mask i))
    ⟨0, 0, [], []⟩

/-- Outcome of a run of `main` on one input line: early return with the
validation message (lines 80-86), a panic of one of the `unwrap`s / an
arithmetic overflow (debug), or normal completion with the final state. -/
inductive MainResult where
  | invalid (msg : String)
  | panicked
  | done (s : ScanState)

/-- `main` (src/main.rs lines 67-153) after the input line has been read
and trimmed: validate; re-split the raw input on `/`; `unwrap` the
`Ipv4Addr` parse of the raw first part and the `u32` parse of the raw
second part (both panic on failure since the validator accepted a trimmed
variant); compute the mask and the loop bound; run the ping loop. -/
def run_main (input : String) (pingOut : Nat → String) : MainResult :=
  match validate_ip_cidr input with
  | Except.error e => MainResult.invalid e
  | Except.ok _ =>
      match splitOnChar '/' input.data with
      | ipPart :: cidrPart :: _ =>
          match parseIpv4Chars ipPart, parseU32Chars cidrPart with
          | some ipU32, some cidrU32 =>
              if cidrU32 ≤ 32 then
                match shl1u32 (32 - cidrU32) with
                | some bound =>
                    MainResult.done (scanLoop pingOut ipU32 (subnet_mask cidrU32) bound)
                | none => MainResult.panicked
              else MainResult.panicked
          | _, _ => MainResult.panicked
      | _ => MainResult.panicked

/-- Addresses handed to `ping` during a run (empty unless the scan ran). -/
def probedOf : MainResult → List Nat
  | MainResult.done s => s.probed
  | _ => []

/-- The derived unreachable count of a completed scan:
`total_probed - reachable_addresses.length`. -/
def unreachableOf : MainResult → Nat
  | MainResult.done s => s.total - s.upIps.length
  | _ => 0

/-! ## Spec-side definitions used for comparison -/

/-- The subnet mask as §3 of the specification defines it: exactly
`prefix_length` leading one-bits followed by `32 - prefix_length`
zero-bits. -/
def maskFromSpec (p : Nat) : Nat := (u32MAX >>> (32 - p)) <<< (32 - p)

/-- Canonical decimal digits of a natural number (no sign, no leading
zeros), via fuel recursion; the serialization direction of the validator
round-trip, which the repository itself never prints. -/
def natToDecAux : Nat → Nat → List Char → List Char
  | 0, _, acc => acc
  | fuel + 1, n, acc =>
      let d := Char.ofNat (48 + n % 10)
      if n < 10 then d :: acc
      else natToDecAux fuel (n / 10) (d :: acc)

def natToDec (n : Nat) : List Char := natToDecAux (n + 1) n []

/-- `"A.B.C.D"` for octet values `a b c d`. -/
def serializeIp (a b c d : Nat) : List Char :=
  natToDec a ++ ('.' :: (natToDec b ++ ('.' :: (natToDec c ++ ('.' :: natToDec d)))))

/-- `"A.B.C.D/N"` for a descriptor `(a, b, c, d, n)`. -/
def serializeDescriptor (a b c d n : Nat) : String :=
  String.mk (serializeIp a b c d ++ ('/' :: natToDec n))

/-- Tuple a prefix length with four parsed octet values, if all parsed. -/
def pack4 : Option Nat → Option Nat → Option Nat → Option Nat → Nat →
    Option (Nat × Nat × Nat × Nat × Nat)
  | some va, some vb, some vc, some vd, n => some (va, vb, vc, vd, n)
  | _, _, _, _, _ => none

/-- The octet values of a validated address string, re-parsed the way the
validator itself parsed them. -/
def descriptorOfParts (ip : List Char) (n : Nat) : Option (Nat × Nat × Nat × Nat × Nat) :=
  match splitOnChar '.' ip with
  | [a, b, c, d] => pack4 (parseU8Chars a) (parseU8Chars b) (parseU8Chars c) (parseU8Chars d) n
  | _ => none

/-- The descriptor denoted by a successful validation: the four octet
values of the returned address string together with the returned prefix
length. -/
def validateToDescriptor (input : String) : Option (Nat × Nat × Nat × Nat × Nat) :=
  match validate_ip_cidr input with
  | Except.error _ => none
  | Except.ok (ip, n) => descriptorOfParts ip.data n

/-- A ping stub whose output never reports a received reply. -/
def pingNone : Nat → String := fun _ => ("")

/-- The Prober stub of the specification's test scenario: only
192.168.1.1 (= 3232235777) and 192.168.1.2 (= 3232235778) answer. -/
def stubOut : Nat → String := fun a =>
  if a = 3232235777 ∨ a = 3232235778 then ("1 packets transmitted, 1 received, 0% packet loss")
  else ("1 packets transmitted, 0 received, 100% packet loss")

/-! ## Helper lemmas -/

theorem parseUnsigned_some_le (m : Nat) (l : List Char) (v : Nat)
    (h : parseUnsigned m l = some v) : v ≤ m := by
  unfold parseUnsigned at h
  split at h
  · exact absurd h (by simp)
  · split at h
    · split at h
      · cases h; assumption
      · exact absurd h (by simp)
    · exact absurd h (by simp)

theorem parseU8_some_le (l : List Char) (v : Nat) (h : parseU8Chars l = some v) : v ≤ 255 :=
  parseUnsigned_some_le 255 l v h

/-- Decimal serialization of every 8-bit value parses back to it, both with
the lenient `u8` parser of the validator, the strict octet parser of
`Ipv4Addr`, and the `u32` parser of `main`; and it consists of digits. -/
theorem natToDec_ok : ∀ k < 256,
    parseU8Chars (natToDec k) = some k ∧ strictOctet (natToDec k) = some k ∧
    parseU32Chars (natToDec k) = some k ∧ (natToDec k).all isDigitChar = true := by decide

theorem ws_false_of_digit (c : Char) (h : isDigitChar c = true) : isWsChar c = false := by
  simp [isDigitChar, isWsChar] at *
  omega

theorem not_mem_of_digits (c : Char) (hc : isDigitChar c = false) (l : List Char)
    (h : l.all isDigitChar = true) : c ∉ l := by
  intro m
  rw [List.all_eq_true] at h
  have := h c m
  simp [hc] at this

theorem dropWhile_id_of_false (p : Char → Bool) (l : List Char)
    (h : ∀ x ∈ l, p x = false) : l.dropWhile p = l := by
  cases l with
  | nil => rfl
  | cons c t => simp [List.dropWhile_cons, h c (List.mem_cons_self c t)]

theorem trimChars_id (l : List Char) (h : ∀ x ∈ l, isWsChar x = false) : trimChars l = l := by
  unfold trimChars
  rw [dropWhile_id_of_false _ _ h]
  rw [dropWhile_id_of_false _ _ (fun x hx => h x (List.mem_reverse.mp hx))]
  exact List.reverse_reverse l

theorem splitOnChar_not_mem (sep : Char) (l : List Char) (h : sep ∉ l) :
    splitOnChar sep l = [l] := by
  induction l with
  | nil => rfl
  | cons c t ih =>
      have hc : ¬ c = sep := fun e => h (e ▸ List.mem_cons_self c t)
      have ht : sep ∉ t := fun m => h (List.mem_cons_of_mem c m)
      simp [splitOnChar, hc, ih ht]

theorem splitOnChar_append (sep : Char) (xs ys : List Char) (h : sep ∉ xs) :
    splitOnChar sep (xs ++ sep :: ys) = xs :: splitOnChar sep ys := by
  induction xs with
  | nil => simp [splitOnChar]
  | cons c t ih =>
      have hc : ¬ c = sep := fun e => h (e ▸ List.mem_cons_self c t)
      have ht : sep ∉ t := fun m => h (List.mem_cons_of_mem c m)
      rw [List.cons_append, splitOnChar, if_neg hc, ih ht]

theorem digit_chars_natToDec (k : Nat) (hk : k ≤ 255) : (natToDec k).all isDigitChar = true :=
  (natToDec_ok k (by omega)).2.2.2

theorem mem_natToDec_digit (k : Nat) (hk : k ≤ 255) (x : Char) (hx : x ∈ natToDec k) :
    isDigitChar x = true :=
  List.all_eq_true.mp (digit_chars_natToDec k hk) x hx

theorem dot_not_mem_natToDec (k : Nat) (hk : k ≤ 255) : ('.' : Char) ∉ natToDec k :=
  not_mem_of_digits '.' (by decide) _ (digit_chars_natToDec k hk)

theorem slash_not_mem_natToDec (k : Nat) (hk : k ≤ 255) : ('/' : Char) ∉ natToDec k :=
  not_mem_of_digits '/' (by decide) _ (digit_chars_natToDec k hk)

theorem serializeIp_chars (a b c d : Nat) (ha : a ≤ 255) (hb : b ≤ 255) (hc : c ≤ 255)
    (hd : d ≤ 255) : ∀ x ∈ serializeIp a b c d, isDigitChar x = true ∨ x = '.' := by
  intro x hx
  unfold serializeIp at hx
  rcases List.mem_append.mp hx with h | hx1
  · exact Or.inl (mem_natToDec_digit a ha x h)
  rcases List.mem_cons.mp hx1 with h | hx2
  · exact Or.inr h
  rcases List.mem_append.mp hx2 with h | hx3
  · exact Or.inl (mem_natToDec_digit b hb x h)
  rcases List.mem_cons.mp hx3 with h | hx4
  · exact Or.inr h
  rcases List.mem_append.mp hx4 with h | hx5
  · exact Or.inl (mem_natToDec_digit c hc x h)
  rcases List.mem_cons.mp hx5 with h | hx6
  · exact Or.inr h
  · exact Or.inl (mem_natToDec_digit d hd x hx6)

theorem ws_false_serializeIp (a b c d : Nat) (ha : a ≤ 255) (hb : b ≤ 255) (hc : c ≤ 255)
    (hd : d ≤ 255) : ∀ x ∈ serializeIp a b c d, isWsChar x = false := by
  intro x hx
  rcases serializeIp_chars a b c d ha hb hc hd x hx with h | h
  · exact ws_false_of_digit x h
  · rw [h]; decide

theorem slash_not_mem_serializeIp (a b c d : Nat) (ha : a ≤ 255) (hb : b ≤ 255)
    (hc : c ≤ 255) (hd : d ≤ 255) : ('/' : Char) ∉ serializeIp a b c d := by
  intro m
  rcases serializeIp_chars a b c d ha hb hc hd '/' m with h | h
  · exact absurd h (by decide)
  · exact absurd h (by decide)

theorem splitIp (a b c d : Nat) (ha : a ≤ 255) (hb : b ≤ 255) (hc : c ≤ 255) (hd : d ≤ 255) :
    splitOnChar '.' (serializeIp a b c d) =
      [natToDec a, natToDec b, natToDec c, natToDec d] := by
  unfold serializeIp
  rw [splitOnChar_append '.' _ _ (dot_not_mem_natToDec a ha),
      splitOnChar_append '.' _ _ (dot_not_mem_natToDec b hb),
      splitOnChar_append '.' _ _ (dot_not_mem_natToDec c hc),
      splitOnChar_not_mem '.' _ (dot_not_mem_natToDec d hd)]

theorem octet_ok_of_parse (o : List Char) (v : Nat) (h : parseU8Chars o = some v) :
    octet_ok o = true := by
  unfold octet_ok
  rw [h]
  simp [Nat.not_lt.mpr (parseU8_some_le o v h)]

theorem validate_ip_address_serialize (a b c d : Nat) (ha : a ≤ 255) (hb : b ≤ 255)
    (hc : c ≤ 255) (hd : d ≤ 255) : validate_ip_address (serializeIp a b c d) = true := by
  unfold validate_ip_address
  rw [splitIp a b c d ha hb hc hd]
  simp [octet_ok_of_parse _ a (natToDec_ok a (by omega)).1,
        octet_ok_of_parse _ b (natToDec_ok b (by omega)).1,
        octet_ok_of_parse _ c (natToDec_ok c (by omega)).1,
        octet_ok_of_parse _ d (natToDec_ok d (by omega)).1]

theorem trim_serializeIp (a b c d : Nat) (ha : a ≤ 255) (hb : b ≤ 255) (hc : c ≤ 255)
    (hd : d ≤ 255) : trimChars (serializeIp a b c d) = serializeIp a b c d :=
  trimChars_id _ (ws_false_serializeIp a b c d ha hb hc hd)

theorem trim_natToDec (k : Nat) (hk : k ≤ 255) : trimChars (natToDec k) = natToDec k :=
  trimChars_id _ (fun x hx => ws_false_of_digit x (mem_natToDec_digit k hk x hx))

theorem validateCidrChars_two (input p0 p1 : List Char)
    (h : splitOnChar '/' input = [p0, p1]) :
    validateCidrChars input = validateTwoParts p0 p1 := by
  unfold validateCidrChars
  rw [h]

theorem validateCidrChars_serialize (a b c d n : Nat) (ha : a ≤ 255) (hb : b ≤ 255)
    (hc : c ≤ 255) (hd : d ≤ 255) (hn : n ≤ 32) :
    validateCidrChars (serializeIp a b c d ++ ('/' :: natToDec n)) =
      Except.ok (serializeIp a b c d, n) := by
  rw [validateCidrChars_two _ _ _ (by
    rw [splitOnChar_append '/' _ _ (slash_not_mem_serializeIp a b c d ha hb hc hd),
        splitOnChar_not_mem '/' _ (slash_not_mem_natToDec n (by omega))])]
  unfold validateTwoParts
  rw [trim_serializeIp a b c d ha hb hc hd, trim_natToDec n (by omega),
      validate_ip_address_serialize a b c d ha hb hc hd,
      (natToDec_ok n (by omega)).1]
  rw [if_pos rfl]
  simp only [cidrCheck]
  rw [if_neg (by omega)]

theorem validate_serialize (a b c d n : Nat) (ha : a ≤ 255) (hb : b ≤ 255)
    (hc : c ≤ 255) (hd : d ≤ 255) (hn : n ≤ 32) :
    validate_ip_cidr (serializeDescriptor a b c d n) =
      Except.ok (String.mk (serializeIp a b c d), n) := by
  unfold validate_ip_cidr
  rw [show (serializeDescriptor a b c d n).data =
      serializeIp a b c d ++ ('/' :: natToDec n) from rfl]
  rw [validateCidrChars_serialize a b c d n ha hb hc hd hn]

theorem descriptorOfParts_serialize (a b c d n : Nat) (ha : a ≤ 255) (hb : b ≤ 255)
    (hc : c ≤ 255) (hd : d ≤ 255) :
    descriptorOfParts (serializeIp a b c d) n = some (a, b, c, d, n) := by
  unfold descriptorOfParts
  rw [splitIp a b c d ha hb hc hd]
  show pack4 (parseU8Chars (natToDec a)) (parseU8Chars (natToDec b))
      (parseU8Chars (natToDec c)) (parseU8Chars (natToDec d)) n = some (a, b, c, d, n)
  rw [(natToDec_ok a (by omega)).1, (natToDec_ok b (by omega)).1,
      (natToDec_ok c (by omega)).1, (natToDec_ok d (by omega)).1]
  rfl

theorem parseIpv4_serialize (a b c d : Nat) (ha : a ≤ 255) (hb : b ≤ 255)
    (hc : c ≤ 255) (hd : d ≤ 255) :
    parseIpv4Chars (serializeIp a b c d) =
      some (a * 16777216 + b * 65536 + c * 256 + d) := by
  unfold parseIpv4Chars
  rw [splitIp a b c d ha hb hc hd]
  show ipv4Pack (strictOctet (natToDec a)) (strictOctet (natToDec b))
      (strictOctet (natToDec c)) (strictOctet (natToDec d)) = _
  rw [(natToDec_ok a (by omega)).2.1, (natToDec_ok b (by omega)).2.1,
      (natToDec_ok c (by omega)).2.1, (natToDec_ok d (by omega)).2.1]
  rfl

/-- The mask of src/main.rs line 96 does not depend on the prefix at all:
`0u32.checked_shr(cidr)` is `Some(0)` or `None`, so `unwrap_or(0)` is `0`
and the negation is always all-ones. -/
theorem subnet_mask_const (cidr : Nat) : subnet_mask cidr = 4294967295 := by
  unfold subnet_mask checked_shr u32MAX
  split <;> simp [Nat.zero_shiftRight] <;> decide

/-! ## The claims -/

/-- Claim C1 (code bug).  Evaluation of the program at the validated
descriptor `10.0.0.1/31`: the enumeration probes `[167772161, 167772161]`,
i.e. the base address 10.0.0.1 twice — `2^(32-31) = 2` probes, but not
distinct, because the subnet mask the code derives is all-ones and the
host bits of the base address are never cleared.  The claimed enumeration
`(base & mask) | i` with a 31-bit mask would have been the two distinct
addresses 10.0.0.0 and 10.0.0.1. -/
theorem c1_enumeration_not_distinct :
    probedOf (run_main ("10.0.0.1/31") pingNone) = [167772161, 167772161] ∧
    ¬ (probedOf (run_main ("10.0.0.1/31") pingNone)).Nodup := by
  constructor
  · rfl
  · decide

/-- Claim C2 (code bug).  At prefix length 24 the program's mask is
`0xFFFFFFFF`, not the claimed `0xFFFFFF00` (24 leading ones, 8 zeros);
indeed the mask is `0xFFFFFFFF` for every prefix length. -/
theorem c2_subnet_mask_constant :
    subnet_mask 24 = 4294967295 ∧ maskFromSpec 24 = 4294967040 ∧
    subnet_mask 24 ≠ maskFromSpec 24 ∧ (∀ cidr, subnet_mask cidr = 4294967295) :=
  ⟨rfl, rfl, by decide, subnet_mask_const⟩

/-- Claim C3 (code bug).  On the validated input `0.0.0.0/0` the loop
bound `1u32 << (32 - 0)` is an overflowing shift of a 32-bit counter, so
the run panics (debug semantics; a release build masks the shift and
enumerates a single address) instead of enumerating `2^32` addresses. -/
theorem c3_full_range_shift_panics (pingOut : Nat → String) :
    run_main ("0.0.0.0/0") pingOut = MainResult.panicked ∧
    shl1u32 (32 - 0) = none := ⟨rfl, rfl⟩

/-- Claim C4, counterexample.  `10.0.0.+1/24` passes `validate_ip_cidr`
(octet `+1` parses as `u8`) but `Ipv4Addr` parsing of `10.0.0.+1` fails,
so `main`'s `unwrap` panics; likewise `10.0.0.1 /24` validates (the
validator trims each part) but the untrimmed part `10.0.0.1 ` fails the
`Ipv4Addr` parse. -/
theorem c4_validated_input_panics :
    validate_ip_cidr ("10.0.0.+1/24") = Except.ok (("10.0.0.+1"), 24) ∧
    parseIpv4Chars (("10.0.0.+1").data) = none ∧
    run_main ("10.0.0.+1/24") pingNone = MainResult.panicked ∧
    validate_ip_cidr ("10.0.0.1 /24") = Except.ok (("10.0.0.1"), 24) ∧
    run_main ("10.0.0.1 /24") pingNone = MainResult.panicked :=
  ⟨rfl, rfl, rfl, rfl, rfl⟩

/-- Claim C4, amended.  For canonical inputs `A.B.C.D/N` (plain decimal
octets without sign, leading zeros or whitespace, prefix at most 32) the
re-split on `/` and both unchecked parses of `main` succeed. -/
theorem c4_canonical_inputs_parse (a b c d n : Nat) (ha : a ≤ 255) (hb : b ≤ 255)
    (hc : c ≤ 255) (hd : d ≤ 255) (hn : n ≤ 32) :
    validate_ip_cidr (serializeDescriptor a b c d n) =
      Except.ok (String.mk (serializeIp a b c d), n) ∧
    splitOnChar '/' (serializeDescriptor a b c d n).data =
      [serializeIp a b c d, natToDec n] ∧
    parseIpv4Chars (serializeIp a b c d) = some (a * 16777216 + b * 65536 + c * 256 + d) ∧
    parseU32Chars (natToDec n) = some n :=
  ⟨validate_serialize a b c d n ha hb hc hd hn,
   by rw [show (serializeDescriptor a b c d n).data =
          serializeIp a b c d ++ ('/' :: natToDec n) from rfl,
          splitOnChar_append '/' _ _ (slash_not_mem_serializeIp a b c d ha hb hc hd),
          splitOnChar_not_mem '/' _ (slash_not_mem_natToDec n (by omega))],
   parseIpv4_serialize a b c d ha hb hc hd,
   (natToDec_ok n (by omega)).2.2.1⟩

/-- Witness for the amended claim C4 at the concrete descriptor
`10.0.0.1/24`. -/
theorem c4_canonical_inputs_parse_witness :
    validate_ip_cidr (serializeDescriptor 10 0 0 1 24) =
      Except.ok (String.mk (serializeIp 10 0 0 1), 24) ∧
    splitOnChar '/' (serializeDescriptor 10 0 0 1 24).data =
      [serializeIp 10 0 0 1, natToDec 24] ∧
    parseIpv4Chars (serializeIp 10 0 0 1) = some (10 * 16777216 + 0 * 65536 + 0 * 256 + 1) ∧
    parseU32Chars (natToDec 24) = some 24 :=
  c4_canonical_inputs_parse 10 0 0 1 24 (by decide) (by decide) (by decide) (by decide)
    (by decide)

/-- Claim C5.  `192.168.1.0/30` with the stub Prober that answers only for
192.168.1.1 and 192.168.1.2: four probes in ascending enumeration order,
reachable list `[192.168.1.1, 192.168.1.2]`, and derived unreachable count
`total_probed - reachable.length = 2`. -/
theorem c5_scenario_30 :
    run_main ("192.168.1.0/30") stubOut =
      MainResult.done ⟨4, 2, [3232235777, 3232235778],
        [3232235776, 3232235777, 3232235778, 3232235779]⟩ ∧
    unreachableOf (run_main ("192.168.1.0/30") stubOut) = 2 := ⟨rfl, rfl⟩

/-- Claim C6.  One loop iteration on the mechanism output `out`:
`total_count` always increments, the address is appended to `up_ips` and
`up_count` increments exactly when `out` contains `"1 received"` (the
probe-count-1 success outcome), and otherwise both are left unchanged. -/
theorem c6_reachability_classification (out : String) (s : ScanState) (addr : Nat) :
    (pingStep out s addr).total = s.total + 1 ∧
    (pingStep out s addr).probed = s.probed ++ [addr] ∧
    (pingStep out s addr).upIps =
      (if containsSub out.data oneReceived then s.upIps ++ [addr] else s.upIps) ∧
    (pingStep out s addr).upCount =
      (if containsSub out.data oneReceived then s.upCount + 1 else s.upCount) := by
  unfold pingStep
  cases h : containsSub out.data oneReceived <;> simp [h]

/-- Claim C7.  The four rejection cases: no slash is the malformed-input
error, a prefix above 32 the invalid-prefix error, an octet above 255 and
a three-octet address the invalid-address error. -/
theorem c7_validation_rejections :
    validate_ip_cidr ("10.0.0.1") =
      Except.error ("Invalid format, expected IP with CIDR prefix.") ∧
    validate_ip_cidr ("10.0.0.1/33") =
      Except.error ("CIDR prefix must be a number between 0 - 32.") ∧
    validate_ip_cidr ("10.0.0.256/24") = Except.error ("Invalid IP address.") ∧
    validate_ip_cidr ("10.0.0/24") = Except.error ("Invalid IP address.") :=
  ⟨rfl, rfl, rfl, rfl⟩

/-- Claim C8.  Whenever validation fails, `main` surfaces exactly the
validation message and returns before the enumeration or any probe: the
run ends in the `invalid` outcome, whose probed-address list is empty. -/
theorem c8_validation_error_aborts (input : String) (pingOut : Nat → String) (e : String)
    (h : validate_ip_cidr input = Except.error e) :
    run_main input pingOut = MainResult.invalid e := by
  unfold run_main
  rw [h]

/-- Witness for claim C8 at the slash-less input `10.0.0.1`. -/
theorem c8_validation_error_aborts_witness :
    run_main ("10.0.0.1") pingNone =
      MainResult.invalid ("Invalid format, expected IP with CIDR prefix.") :=
  c8_validation_error_aborts ("10.0.0.1") pingNone
    ("Invalid format, expected IP with CIDR prefix.") rfl

/-- Claim C9.  Round trip: serializing any in-range descriptor to
`A.B.C.D/N` and re-validating yields the same descriptor. -/
theorem c9_validator_round_trip (a b c d n : Nat) (ha : a ≤ 255) (hb : b ≤ 255)
    (hc : c ≤ 255) (hd : d ≤ 255) (hn : n ≤ 32) :
    validateToDescriptor (serializeDescriptor a b c d n) = some (a, b, c, d, n) := by
  unfold validateToDescriptor
  rw [validate_serialize a b c d n ha hb hc hd hn]
  exact descriptorOfParts_serialize a b c d n ha hb hc hd

/-- Witness for claim C9 at the descriptor `192.168.1.0/30`. -/
theorem c9_validator_round_trip_witness :
    validateToDescriptor (serializeDescriptor 192 168 1 0 30) = some (192, 168, 1, 0, 30) :=
  c9_validator_round_trip 192 168 1 0 30 (by decide) (by decide) (by decide) (by decide)
    (by decide)

/-- Claim C10.  The octet check of `validate_ip_address` accepts exactly
the strings `u8`-parsing accepts — the `value > 255` rejection branch can
never fire, because a successful `u8` parse is bounded by 255 (the
`getD`-form second conjunct). -/
theorem c10_dead_branch_octet_check (o : List Char) :
    octet_ok o = (parseU8Chars o).isSome ∧ (parseU8Chars o).getD 0 ≤ 255 := by
  constructor
  · unfold octet_ok
    cases h : parseU8Chars o with
    | none => rfl
    | some v => simp [Nat.not_lt.mpr (parseU8_some_le o v h)]
  · cases h : parseU8Chars o with
    | none => simp
    | some v => simpa using parseU8_some_le o v h
